import Mathlib

/-!
Shallow embedding of `src/analysis.py` (Kaarinan ostolaskudata dashboard).

Rows of the pandas DataFrame are modelled as `Row` records; the textual CSV
rows (after `clean_column_names`) as `RawRow`.  Dates are encoded as integers
`y * 10000 + m * 100 + d`, which orders exactly like calendar dates for the
two-digit day/month fields produced by the `%d.%m.%Y` parser.  Amounts are
rationals (pandas float arithmetic on decimal inputs).  A pandas `NaN`
produced by an aggregation over an empty series is modelled as `Option.none`.
-/

/-- One parsed invoice row of the DataFrame produced by `load_data`. -/
structure Row where
  pvm : Int
  laskun_summa : ℚ
  tili_nimi : String
  toimittaja_nimi : String
  deriving DecidableEq, Repr

/-- One raw CSV row after `clean_column_names`: the textual fields that
`load_data` still has to coerce (`laskun_summa` comma-decimal text, `pvm`
in `DD.MM.YYYY`). -/
structure RawRow where
  pvm : String
  laskun_summa : String
  tili_nimi : String
  toimittaja_nimi : String
  deriving DecidableEq, Repr

/-- `.str.replace(r'\s+', '', regex=True)`: every whitespace character is
removed (this also strips internal thousands separators). -/
def stripWhitespace (s : String) : String :=
  String.mk (s.toList.filter (fun c => !c.isWhitespace))

/-- `.str.replace(',', '.', regex=False)`: every comma becomes a period. -/
def commaToDot (s : String) : String :=
  String.mk (s.toList.map (fun c => if c = ',' then '.' else c))

/-- Numeric value of a digit string. -/
def digitsVal (cs : List Char) : ℕ :=
  cs.foldl (fun a c => 10 * a + (c.toNat - 48)) 0

/-- `.astype(float)` on one cell: Python float parsing, restricted to the
plain decimal literals that occur after whitespace stripping and comma
replacement — optional sign, an integer part, an optional fractional part,
with at least one digit overall.  Anything else raises, modelled as `none`. -/
def parseFloat (s : String) : Option ℚ :=
  let cs := s.toList
  let signBody : ℚ × List Char :=
    match cs with
    | '-' :: rest => (-1, rest)
    | '+' :: rest => (1, rest)
    | _ => (1, cs)
  let sgn := signBody.1
  let body := signBody.2
  let intPart := body.takeWhile (fun c => c.isDigit)
  let rest := body.dropWhile (fun c => c.isDigit)
  match rest with
  | [] => if intPart.isEmpty then none else some (sgn * (digitsVal intPart : ℚ))
  | '.' :: frac =>
    if frac.all (fun c => c.isDigit) && !(intPart.isEmpty && frac.isEmpty) then
      some (sgn * ((digitsVal intPart : ℚ) + (digitsVal frac : ℚ) / (10 : ℚ) ^ frac.length))
    else none
  | _ => none

/-- The amount pipeline of `load_data`:
strip whitespace, then comma to period, then float parsing. -/
def parseAmount (s : String) : Option ℚ :=
  parseFloat (commaToDot (stripWhitespace s))

/-- `pd.to_datetime(_, format='%d.%m.%Y')` on one cell: day and month of one
or two digits, a four-digit year, in-range month and day; encoded as
`y * 10000 + m * 100 + d`.  A mismatch raises, modelled as `none`. -/
def parseDate (s : String) : Option Int :=
  match s.toList.splitOn '.' with
  | [d, m, y] =>
    if d.all (fun c => c.isDigit) && m.all (fun c => c.isDigit) && y.all (fun c => c.isDigit)
        && decide (1 ≤ d.length) && decide (d.length ≤ 2)
        && decide (1 ≤ m.length) && decide (m.length ≤ 2)
        && decide (y.length = 4)
        && decide (1 ≤ digitsVal d) && decide (digitsVal d ≤ 31)
        && decide (1 ≤ digitsVal m) && decide (digitsVal m ≤ 12) then
      some (10000 * (digitsVal y : Int) + 100 * (digitsVal m : Int) + (digitsVal d : Int))
    else none
  | _ => none

/-- Column-wise amount coercion: the whole column parses, or the first
failure aborts it (`astype(float)` raises on the bad cell). -/
def load_amounts : List RawRow → Option (List ℚ)
  | [] => some []
  | r :: rest =>
    match parseAmount r.laskun_summa, load_amounts rest with
    | some a, some l => some (a :: l)
    | _, _ => none

/-- Column-wise date coercion, as for `load_amounts`. -/
def load_dates : List RawRow → Option (List Int)
  | [] => some []
  | r :: rest =>
    match parseDate r.pvm, load_dates rest with
    | some d, some l => some (d :: l)
    | _, _ => none

/-- Reassemble the DataFrame from the raw rows and the two coerced columns. -/
def mkRows : List RawRow → List ℚ → List Int → List Row
  | r :: rs, a :: amts, d :: ds =>
    ⟨d, a, r.tili_nimi, r.toimittaja_nimi⟩ :: mkRows rs amts ds
  | _, _, _ => []

/-- `load_data`: coerce the amount column then the date column; any cell
failure raises, is caught by the `except` block and surfaced with the cause
(`st.error(f"Virhe datan latauksessa: {str(e)}")`), modelled as
`Except.error` carrying the message. -/
def load_data (rows : List RawRow) : Except String (List Row) :=
  match load_amounts rows with
  | none => Except.error "Virhe datan latauksessa: could not convert string to float"
  | some amts =>
    match load_dates rows with
    | none => Except.error "Virhe datan latauksessa: time data does not match format"
    | some ds => Except.ok (mkRows rows amts ds)

/-- `apply_filters`: the boolean mask built row-wise exactly as in the
source — date range and amount range always, the account and supplier
`isin` conjuncts only when the selected list is non-empty (Python list
truthiness).  `df[mask]` keeps the rows whose mask entry is true. -/
def apply_filters (df : List Row) (date_lo date_hi : Int)
    (selected_accounts selected_suppliers : List String)
    (min_amount max_amount : ℚ) : List Row :=
  df.filter (fun r =>
    let mask := decide (date_lo ≤ r.pvm) && decide (r.pvm ≤ date_hi)
      && decide (min_amount ≤ r.laskun_summa) && decide (r.laskun_summa ≤ max_amount)
    let mask := if selected_accounts.isEmpty then mask
      else mask && decide (r.tili_nimi ∈ selected_accounts)
    let mask := if selected_suppliers.isEmpty then mask
      else mask && decide (r.toimittaja_nimi ∈ selected_suppliers)
    mask)

/-- The `laskun_summa` column of a view. -/
def amounts (df : List Row) : List ℚ :=
  df.map (fun r => r.laskun_summa)

/-- The six figures rendered by `display_metrics`.  `mean`, `max` and `min`
of an empty series are pandas `NaN`, modelled as `none`; `sum` of an empty
series is `0`. -/
structure Metrics where
  count : ℕ
  mean : Option ℚ
  sum : ℚ
  max : Option ℚ
  min : Option ℚ
  nunique : ℕ
  deriving DecidableEq, Repr

/-- `display_metrics`: `len`, `.mean()`, `.sum()`, `.max()`, `.min()` of
`laskun_summa` and `.nunique()` of `toimittaja_nimi` over the filtered view. -/
def display_metrics (df : List Row) : Metrics :=
  { count := df.length
    mean := if df.isEmpty then none else some ((amounts df).sum / (df.length : ℚ))
    sum := (amounts df).sum
    max := (amounts df).max?
    min := (amounts df).min?
    nunique := ((df.map (fun r => r.toimittaja_nimi)).dedup).length }

/-- `df.groupby(key)['laskun_summa'].sum()`: one `(key, total)` pair per
distinct key.  pandas lists group keys in sorted key order; every use in the
source immediately re-sorts by total, so the distinct keys are taken here in
first-occurrence order. -/
def groupSum (key : Row → String) (df : List Row) : List (String × ℚ) :=
  ((df.map key).dedup).map
    (fun k => (k, ((df.filter (fun r => decide (key r = k))).map (fun r => r.laskun_summa)).sum))

/-- `.sort_values(ascending=True)` on a keyed series. -/
def sortByValAsc (l : List (String × ℚ)) : List (String × ℚ) :=
  l.insertionSort (fun a b => a.2 ≤ b.2)

/-- `.sort_values(ascending=False)` on a keyed series. -/
def sortByValDesc (l : List (String × ℚ)) : List (String × ℚ) :=
  l.insertionSort (fun a b => b.2 ≤ a.2)

/-- The totals column of a keyed series. -/
def totals (l : List (String × ℚ)) : List ℚ :=
  l.map (fun p => p.2)

/-- The series plotted by `plot_top_suppliers`:
`groupby('toimittaja_nimi').sum().sort_values(ascending=True).tail(10)`. -/
def top_suppliers_table (df : List Row) : List (String × ℚ) :=
  let g := sortByValAsc (groupSum (fun r => r.toimittaja_nimi) df)
  g.drop (g.length - 10)

/-- `plot_top_suppliers`: `None` (a warning, no figure) on an empty view,
otherwise the bar chart over `top_suppliers_table`. -/
def plot_top_suppliers (df : List Row) : Option (List (String × ℚ)) :=
  if df.isEmpty then none else some (top_suppliers_table df)

/-- The series examined by `plot_account_distribution`:
`groupby('tili_nimi').sum().sort_values(ascending=False).head(10)`. -/
def account_spending (df : List Row) : List (String × ℚ) :=
  (sortByValDesc (groupSum (fun r => r.tili_nimi) df)).take 10

/-- Possible outcomes of `plot_account_distribution`: the empty-view warning,
the all-negative warning, the mixed-sign warning whose positive remainder is
empty, the mixed-sign warning with the retained positive shares charted, and
the plain pie chart. -/
inductive AccountDistResult where
  | noData
  | noPositiveData
  | droppedEmpty
  | droppedChart (shares : List (String × ℚ))
  | chart (shares : List (String × ℚ))
  deriving DecidableEq, Repr

/-- `plot_account_distribution`: empty view warns; `all(spending < 0)` warns
and returns no figure; else `any(spending < 0)` warns, keeps the strictly
positive totals and charts them unless none remain; else charts the series. -/
def plot_account_distribution (df : List Row) : AccountDistResult :=
  if df.isEmpty then AccountDistResult.noData
  else
    let spending := account_spending df
    if spending.all (fun p => decide (p.2 < 0)) then AccountDistResult.noPositiveData
    else if spending.any (fun p => decide (p.2 < 0)) then
      let pos := spending.filter (fun p => decide (0 < p.2))
      if pos.isEmpty then AccountDistResult.droppedEmpty
      else AccountDistResult.droppedChart pos
    else AccountDistResult.chart spending

/-- `Series.quantile(q)` with the default linear interpolation: with the
values sorted ascending and `p = q * (n - 1)`, interpolate between the
values at positions `⌊p⌋` and `⌊p⌋ + 1`.  `none` on an empty series. -/
def series_quantile (xs : List ℚ) (q : ℚ) : Option ℚ :=
  if xs.isEmpty then none
  else
    let s := xs.insertionSort (fun a b => a ≤ b)
    let n := s.length
    let p : ℚ := q * ((n : ℚ) - 1)
    let i : ℕ := (⌊p⌋).toNat
    let g : ℚ := p - (i : ℚ)
    let lo := s.getD i 0
    let hi := s.getD (min (i + 1) (n - 1)) 0
    some (lo + g * (hi - lo))

/-- `plot_invoice_distribution`: `None` on an empty view; otherwise the
histogram is drawn over `df[df['laskun_summa'] < df['laskun_summa'].quantile(0.95)]`,
modelled as the retained row list. -/
def plot_invoice_distribution (df : List Row) : Option (List Row) :=
  if df.isEmpty then none
  else some (df.filter
    (fun r => decide (r.laskun_summa < (series_quantile (amounts df) (95 / 100)).getD 0)))

/-- C1: `apply_filters` returns exactly the input rows satisfying the
conjunction of the per-dimension conditions — both range boundaries
inclusive, an empty account or supplier selection imposing no restriction —
and its output is a subset of the input.  (The embedding is purely
functional, so the input list is unchanged by construction.) -/
theorem apply_filters_exact (df : List Row) (dlo dhi : Int)
    (accs sups : List String) (mlo mhi : ℚ) :
    (∀ r : Row, r ∈ apply_filters df dlo dhi accs sups mlo mhi ↔
      (r ∈ df ∧ dlo ≤ r.pvm ∧ r.pvm ≤ dhi ∧ mlo ≤ r.laskun_summa ∧ r.laskun_summa ≤ mhi
        ∧ (accs = [] ∨ r.tili_nimi ∈ accs) ∧ (sups = [] ∨ r.toimittaja_nimi ∈ sups)))
    ∧ apply_filters df dlo dhi accs sups mlo mhi ⊆ df := by
  have hmem : ∀ r : Row, r ∈ apply_filters df dlo dhi accs sups mlo mhi ↔
      (r ∈ df ∧ dlo ≤ r.pvm ∧ r.pvm ≤ dhi ∧ mlo ≤ r.laskun_summa ∧ r.laskun_summa ≤ mhi
        ∧ (accs = [] ∨ r.tili_nimi ∈ accs) ∧ (sups = [] ∨ r.toimittaja_nimi ∈ sups)) := by
    intro r
    cases accs <;> cases sups <;>
      simp [apply_filters, List.mem_filter, and_assoc]
  exact ⟨hmem, fun r hr => ((hmem r).1 hr).1⟩

/-- C3: `apply_filters` on an empty dataset returns the empty view for every
predicate (and, being a total function, does not fail). -/
theorem apply_filters_empty_dataset (dlo dhi : Int) (accs sups : List String)
    (mlo mhi : ℚ) : apply_filters [] dlo dhi accs sups mlo mhi = [] := rfl

/-- C5: `display_metrics` on an empty view yields the definite no-data
result — count 0, sum 0, distinct-supplier count 0, and NaN (modelled
`none`) for mean, max and min — rather than an arithmetic error. -/
theorem display_metrics_empty : display_metrics [] = ⟨0, none, 0, none, none, 0⟩ := rfl

/-- C10: the filtered view is a sublist of the input — each output row is an
input row and relative order is preserved. -/
theorem apply_filters_sublist (df : List Row) (dlo dhi : Int)
    (accs sups : List String) (mlo mhi : ℚ) :
    (apply_filters df dlo dhi accs sups mlo mhi).Sublist df :=
  List.filter_sublist df

/-- C7: applying a predicate that spans the whole dataset (any date and
amount bounds covering every row, empty account and supplier selections —
in particular the identity predicate built from the dataset's own min/max)
and then computing the metrics gives exactly the metrics of the raw dataset. -/
theorem roundtrip_metrics (df : List Row) (dlo dhi : Int) (mlo mhi : ℚ)
    (hd : ∀ r ∈ df, dlo ≤ r.pvm ∧ r.pvm ≤ dhi)
    (hm : ∀ r ∈ df, mlo ≤ r.laskun_summa ∧ r.laskun_summa ≤ mhi) :
    display_metrics (apply_filters df dlo dhi [] [] mlo mhi) = display_metrics df := by
  have h : apply_filters df dlo dhi [] [] mlo mhi = df := by
    apply List.filter_eq_self.mpr
    intro r hr
    have h1 := hd r hr
    have h2 := hm r hr
    simp [h1.1, h1.2, h2.1, h2.2]
  rw [h]

/-- Concrete two-row dataset used to witness the round-trip claim. -/
def wdf : List Row := [⟨20230101, 5, "a", "x"⟩, ⟨20230630, 7, "b", "y"⟩]

/-- Witness for C7 at a concrete dataset and covering predicate. -/
theorem roundtrip_metrics_witness :
    display_metrics (apply_filters wdf 20230101 20231231 [] [] 0 100) = display_metrics wdf :=
  roundtrip_metrics wdf 20230101 20231231 0 100 (by decide) (by decide)

/-- The three-row comma-decimal scenario of the spec. -/
def raw3 : List RawRow :=
  [⟨"15.03.2023", "100,50", "t1", "s1"⟩,
   ⟨"20.06.2023", "-20,00", "t2", "s2"⟩,
   ⟨"01.09.2023", "5,00", "t3", "s3"⟩]

/-- The rows `load_data` produces from `raw3`. -/
def rows3 : List Row :=
  [⟨20230315, 201 / 2, "t1", "s1"⟩,
   ⟨20230620, -20, "t2", "s2"⟩,
   ⟨20230901, 5, "t3", "s3"⟩]

/-- C8: loading the three rows with textual amounts `100,50`, `-20,00`,
`5,00` succeeds, and the metrics of the identity-filtered view are
count 3, mean 28.50, sum 85.50, max 100.50, min −20.00. -/
theorem concrete_scenario_metrics :
    load_data raw3 = Except.ok rows3
    ∧ display_metrics (apply_filters rows3 20230315 20230901 [] [] (-20) (201 / 2)) =
        ⟨3, some (57 / 2), 171 / 2, some (201 / 2), some (-20), 3⟩ :=
  ⟨by with_unfolding_all rfl, by with_unfolding_all decide⟩

/-- A single invoice whose amount is zero: every account total is
non-positive. -/
def zeroRow : Row := ⟨20230101, 0, "a", "s"⟩

/-- C2 counterexample: on a view whose only account total is `0` — so every
account total is non-positive — `plot_account_distribution` draws the pie
chart instead of signaling `NoPositiveData`: the code tests `all(spending < 0)`,
strict negativity, not non-positivity. -/
theorem account_distribution_nonpositive_cex :
    (∀ p ∈ account_spending [zeroRow], p.2 ≤ 0)
    ∧ plot_account_distribution [zeroRow] = AccountDistResult.chart [("a", 0)]
    ∧ plot_account_distribution [zeroRow] ≠ AccountDistResult.noPositiveData := by
  with_unfolding_all decide

/-- On a non-empty view the examined account series
(`sort_values(ascending=False).head(10)`) is non-empty. -/
lemma account_spending_ne_nil (df : List Row) (h : df.isEmpty = false) :
    account_spending df ≠ [] := by
  intro hemp
  have hlen : (account_spending df).length = 0 := by rw [hemp]; rfl
  unfold account_spending sortByValDesc groupSum at hlen
  rw [List.length_take, List.length_insertionSort, List.length_map] at hlen
  have hdd : (df.map fun r => r.tili_nimi).dedup.length = 0 := by omega
  rw [List.length_eq_zero, List.dedup_eq_nil, List.map_eq_nil_iff] at hdd
  subst hdd
  simp at h

/-- C2 amended: over a non-empty view, `plot_account_distribution` signals
`NoPositiveData` exactly when every retained (top-10) account total is
strictly negative; when some but not all retained totals are strictly
negative it keeps exactly the strictly positive totals, charting them if any
remain and otherwise producing no chart; and when no retained total is
strictly negative it charts the series as is (zero totals included). -/
theorem account_distribution_amended (df : List Row) (h : df.isEmpty = false) :
    (plot_account_distribution df = AccountDistResult.noPositiveData ↔
      (account_spending df).all (fun p => decide (p.2 < 0)) = true)
    ∧ ((account_spending df).all (fun p => decide (p.2 < 0)) = false →
        (account_spending df).any (fun p => decide (p.2 < 0)) = true →
        plot_account_distribution df =
          (if ((account_spending df).filter (fun p => decide (0 < p.2))).isEmpty
            then AccountDistResult.droppedEmpty
            else AccountDistResult.droppedChart
              ((account_spending df).filter (fun p => decide (0 < p.2)))))
    ∧ ((account_spending df).any (fun p => decide (p.2 < 0)) = false →
        plot_account_distribution df = AccountDistResult.chart (account_spending df)) := by
  cases hall : (account_spending df).all (fun p => decide (p.2 < 0)) <;>
    cases hany : (account_spending df).any (fun p => decide (p.2 < 0)) <;>
      cases hpos : ((account_spending df).filter (fun p => decide (0 < p.2))).isEmpty <;>
        simp [plot_account_distribution, h, hall, hany, hpos]
  all_goals
    exfalso
    rcases hsp : account_spending df with _ | ⟨p, ps⟩
    · exact account_spending_ne_nil df h hsp
    · rw [hsp] at hall hany
      simp at hall hany
      exact absurd hall.1 (not_lt.mpr hany.1)

/-- Mixed-sign two-account dataset used to witness the amended C2. -/
def mixDf : List Row := [⟨20230101, 5, "a", "s"⟩, ⟨20230102, -7, "b", "s"⟩]

/-- Witness for the amended C2: on the mixed-sign view the negative account
is dropped and the positive remainder is charted. -/
theorem account_distribution_amended_witness :
    plot_account_distribution mixDf = AccountDistResult.droppedChart [("a", 5)] := by
  have h := (account_distribution_amended mixDf (by decide)).2.1
    (by with_unfolding_all decide) (by with_unfolding_all decide)
  exact h.trans (by with_unfolding_all decide)

/-- A successful amount-column coercion records exactly the pipeline result
for every row. -/
lemma load_amounts_eq_some (rows : List RawRow) (l : List ℚ)
    (h : load_amounts rows = some l) :
    rows.map (fun r => parseAmount r.laskun_summa) = l.map some := by
  induction rows generalizing l with
  | nil =>
    simp only [load_amounts, Option.some.injEq] at h
    subst h
    rfl
  | cons r rest ih =>
    simp only [load_amounts] at h
    cases hp : parseAmount r.laskun_summa with
    | none => rw [hp] at h; simp at h
    | some a =>
      rw [hp] at h
      cases hrest : load_amounts rest with
      | none => rw [hrest] at h; simp at h
      | some l2 =>
        rw [hrest] at h
        simp only [Option.some.injEq] at h
        subst h
        simp [List.map_cons, hp, ih l2 hrest]

/-- A successful date-column coercion yields one value per row. -/
lemma load_dates_length (rows : List RawRow) (l : List Int)
    (h : load_dates rows = some l) : l.length = rows.length := by
  induction rows generalizing l with
  | nil =>
    simp only [load_dates, Option.some.injEq] at h
    subst h
    rfl
  | cons r rest ih =>
    simp only [load_dates] at h
    cases hp : parseDate r.pvm with
    | none => rw [hp] at h; simp at h
    | some d =>
      rw [hp] at h
      cases hrest : load_dates rest with
      | none => rw [hrest] at h; simp at h
      | some l2 =>
        rw [hrest] at h
        simp only [Option.some.injEq] at h
        subst h
        simp [ih l2 hrest]

/-- One unparsable amount cell aborts the whole amount coercion. -/
lemma load_amounts_none_of_bad (rows : List RawRow) (r : RawRow) (hr : r ∈ rows)
    (hbad : parseAmount r.laskun_summa = none) : load_amounts rows = none := by
  induction rows with
  | nil => simp at hr
  | cons x rest ih =>
    rcases List.mem_cons.mp hr with h1 | h2
    · subst h1
      simp [load_amounts, hbad]
    · cases parseAmount x.laskun_summa <;> simp [load_amounts, ih h2]

/-- Reassembly keeps the coerced amount column. -/
lemma mkRows_amounts (rows : List RawRow) (amts : List ℚ) (ds : List Int)
    (h1 : amts.length = rows.length) (h2 : ds.length = rows.length) :
    (mkRows rows amts ds).map (fun r => r.laskun_summa) = amts := by
  induction rows generalizing amts ds with
  | nil =>
    cases amts with
    | nil => rfl
    | cons a l => simp at h1
  | cons r rest ih =>
    cases amts with
    | nil => simp at h1
    | cons a amts2 =>
      cases ds with
      | nil => simp at h2
      | cons d ds2 =>
        simp [mkRows, ih amts2 ds2 (by simpa using h1) (by simpa using h2)]

/-- C4: the loader is all-or-nothing — either it returns the full table, in
which every row's amount is exactly the pipeline
strip-whitespace → comma-to-period → parse-float applied to the raw text
(no silent nulls), or it fails with the error carrying the cause; and any
row whose amount fails that pipeline makes the whole load fail. -/
theorem load_data_all_or_nothing (rows : List RawRow) :
    ((∃ rs, load_data rows = Except.ok rs ∧
        rows.map (fun r => parseFloat (commaToDot (stripWhitespace r.laskun_summa))) =
          rs.map (fun r => some r.laskun_summa))
      ∨ (load_data rows).isOk = false)
    ∧ ((∃ r ∈ rows, parseFloat (commaToDot (stripWhitespace r.laskun_summa)) = none) →
        (load_data rows).isOk = false) := by
  constructor
  · cases hA : load_amounts rows with
    | none =>
      right
      simp [load_data, hA, Except.isOk, Except.toBool]
    | some amts =>
      cases hD : load_dates rows with
      | none =>
        right
        simp [load_data, hA, hD, Except.isOk, Except.toBool]
      | some ds =>
        left
        refine ⟨mkRows rows amts ds, by simp [load_data, hA, hD], ?_⟩
        have hmap := load_amounts_eq_some rows amts hA
        have hlen1 : amts.length = rows.length := by
          have hl := congrArg List.length hmap
          simpa using hl.symm
        have hlen2 : ds.length = rows.length := load_dates_length rows ds hD
        have hcol : (mkRows rows amts ds).map (fun r => some r.laskun_summa) =
            ((mkRows rows amts ds).map (fun r => r.laskun_summa)).map some := by
          simp [List.map_map, Function.comp]
        rw [hcol, mkRows_amounts rows amts ds hlen1 hlen2]
        exact hmap
  · rintro ⟨r, hr, hbad⟩
    have hnone := load_amounts_none_of_bad rows r hr hbad
    simp [load_data, hnone, Except.isOk, Except.toBool]

/-- Witness for C4: a concrete one-row file whose amount text is not a
number makes the whole load fail. -/
theorem load_data_all_or_nothing_witness :
    (load_data [⟨"01.01.2023", "abc", "t", "s"⟩]).isOk = false :=
  (load_data_all_or_nothing [⟨"01.01.2023", "abc", "t", "s"⟩]).2
    ⟨⟨"01.01.2023", "abc", "t", "s"⟩, by decide, by decide⟩

/-- C9: on a non-empty view, the rows the histogram is drawn over are exactly
the view's rows whose amount is strictly below the 0.95 quantile of the
view's amounts. -/
theorem invoice_distribution_trims (df : List Row) (h : df.isEmpty = false) (r : Row) :
    r ∈ (plot_invoice_distribution df).getD [] ↔
      (r ∈ df ∧ r.laskun_summa < (series_quantile (amounts df) (95 / 100)).getD 0) := by
  simp [plot_invoice_distribution, h, List.mem_filter]

/-- One-row view used to witness C9. -/
def qrow : Row := ⟨20230101, 1, "a", "s"⟩

/-- Witness for C9: on the one-row view the single amount equals the
quantile, so the strict comparison excludes the row. -/
theorem invoice_distribution_trims_witness :
    ([qrow].isEmpty = false)
    ∧ (qrow ∈ (plot_invoice_distribution [qrow]).getD [] ↔
        (qrow ∈ [qrow] ∧ qrow.laskun_summa < (series_quantile (amounts [qrow]) (95 / 100)).getD 0)) :=
  ⟨by decide, invoice_distribution_trims [qrow] (by decide) qrow⟩

instance : IsTotal (String × ℚ) (fun a b => a.2 ≤ b.2) :=
  ⟨fun a b => le_total a.2 b.2⟩

instance : IsTrans (String × ℚ) (fun a b => a.2 ≤ b.2) :=
  ⟨fun _ _ _ h1 h2 => le_trans h1 h2⟩

/-- Pointwise sums distribute over a mapped list. -/
lemma sum_map_add_split (l : List String) (f g : String → ℚ) :
    (l.map (fun k => f k + g k)).sum = (l.map f).sum + (l.map g).sum := by
  induction l with
  | nil => simp
  | cons a t ih =>
    simp only [List.map_cons, List.sum_cons, ih]
    ring

/-- Summing an indicator of one key over a duplicate-free key list that
contains it picks out exactly its value. -/
lemma sum_indicator (keys : List String) (k : String) (hk : k ∈ keys)
    (hnd : keys.Nodup) (c : ℚ) :
    (keys.map (fun x => if k = x then c else 0)).sum = c := by
  induction keys with
  | nil => simp at hk
  | cons a t ih =>
    rcases List.mem_cons.mp hk with h1 | h2
    · subst h1
      have hnot : k ∉ t := (List.nodup_cons.mp hnd).1
      simp only [List.map_cons, List.sum_cons, if_pos rfl]
      have hz : (t.map (fun x => if k = x then c else 0)).sum = 0 := by
        apply List.sum_eq_zero
        intro x hx
        rcases List.mem_map.mp hx with ⟨y, hy, rfl⟩
        rw [if_neg]
        intro he
        exact hnot (he ▸ hy)
      rw [hz, add_zero]
      simp
    · have hka : k ≠ a := by
        intro he
        subst he
        exact (List.nodup_cons.mp hnd).1 h2
      simp only [List.map_cons, List.sum_cons, if_neg hka]
      rw [zero_add, ih h2 (List.nodup_cons.mp hnd).2]

/-- Grouping preserves the total: the group sums add up to the sum of the
whole amount column. -/
lemma groupSum_total (key : Row → String) (df : List Row) :
    (totals (groupSum key df)).sum = (amounts df).sum := by
  suffices h : ∀ keys : List String, keys.Nodup → (∀ r ∈ df, key r ∈ keys) →
      (keys.map (fun k =>
        ((df.filter (fun r => decide (key r = k))).map (fun r => r.laskun_summa)).sum)).sum
        = (amounts df).sum by
    have hmain := h ((df.map key).dedup) (List.nodup_dedup _)
      (fun r hr => List.mem_dedup.mpr (List.mem_map_of_mem _ hr))
    simpa [totals, groupSum, List.map_map, Function.comp] using hmain
  intro keys hnd
  induction df with
  | nil =>
    intro _
    simp [amounts]
  | cons r rest ih =>
    intro hcov
    have hcovr : key r ∈ keys := hcov r (List.mem_cons_self r rest)
    have hcovrest : ∀ x ∈ rest, key x ∈ keys := fun x hx => hcov x (List.mem_cons_of_mem r hx)
    have hstep : ∀ k ∈ keys,
        (((r :: rest).filter (fun x => decide (key x = k))).map (fun x => x.laskun_summa)).sum
          = (if key r = k then r.laskun_summa else 0)
            + ((rest.filter (fun x => decide (key x = k))).map (fun x => x.laskun_summa)).sum := by
      intro k _
      by_cases hk : key r = k
      · simp [List.filter_cons, hk]
      · simp [List.filter_cons, hk]
    rw [List.map_congr_left hstep, sum_map_add_split,
      sum_indicator keys (key r) hcovr hnd, ih hcovrest]
    simp [amounts]

/-- The plotted top-supplier series is sorted ascending by total. -/
lemma top_suppliers_sorted (df : List Row) :
    List.Sorted (fun a b : String × ℚ => a.2 ≤ b.2) (top_suppliers_table df) := by
  unfold top_suppliers_table sortByValAsc
  exact List.Pairwise.sublist (List.drop_sublist _ _) (List.sorted_insertionSort _ _)

/-- Every plotted entry is one supplier with the sum of that supplier's
amounts in the view. -/
lemma top_suppliers_entries (df : List Row) (p : String × ℚ)
    (hp : p ∈ top_suppliers_table df) :
    p.2 = ((df.filter (fun r => decide (r.toimittaja_nimi = p.1))).map
      (fun r => r.laskun_summa)).sum := by
  unfold top_suppliers_table at hp
  have h1 : p ∈ sortByValAsc (groupSum (fun r => r.toimittaja_nimi) df) :=
    (List.drop_sublist _ _).subset hp
  have h2 : p ∈ groupSum (fun r => r.toimittaja_nimi) df := by
    unfold sortByValAsc at h1
    rwa [List.mem_insertionSort] at h1
  unfold groupSum at h2
  rcases List.mem_map.mp h2 with ⟨k, hk, rfl⟩
  rfl

/-- The plotted totals plus the dropped (smallest) suppliers' totals add up
to the total amount of the whole view. -/
lemma top_suppliers_sum_split (df : List Row) :
    (totals (top_suppliers_table df)).sum
      + (totals ((sortByValAsc (groupSum (fun r => r.toimittaja_nimi) df)).take
          ((sortByValAsc (groupSum (fun r => r.toimittaja_nimi) df)).length - 10))).sum
      = (amounts df).sum := by
  set g := sortByValAsc (groupSum (fun r => r.toimittaja_nimi) df) with hg
  have hsplit : (totals (g.take (g.length - 10))).sum
      + (totals (g.drop (g.length - 10))).sum = (totals g).sum := by
    unfold totals
    rw [List.map_take, List.map_drop]
    exact List.sum_take_add_sum_drop _ _
  have htot : (totals g).sum = (amounts df).sum := by
    have hperm := ((List.perm_insertionSort (fun a b : String × ℚ => a.2 ≤ b.2)
      (groupSum (fun r => r.toimittaja_nimi) df)).map (fun p => p.2)).sum_eq
    rw [hg]
    unfold sortByValAsc totals
    rw [hperm]
    exact groupSum_total _ df
  have hdrop : top_suppliers_table df = g.drop (g.length - 10) := by
    rw [hg]
    rfl
  rw [hdrop]
  linarith [hsplit, htot]

/-- On a view with no negative amount, every group total is non-negative, so
the dropped totals are non-negative. -/
lemma dropped_totals_nonneg (df : List Row) (h : ∀ r ∈ df, 0 ≤ r.laskun_summa) :
    0 ≤ (totals ((sortByValAsc (groupSum (fun r => r.toimittaja_nimi) df)).take
        ((sortByValAsc (groupSum (fun r => r.toimittaja_nimi) df)).length - 10))).sum := by
  apply List.sum_nonneg
  intro x hx
  rcases List.mem_map.mp hx with ⟨p, hp, rfl⟩
  have hpg : p ∈ sortByValAsc (groupSum (fun r => r.toimittaja_nimi) df) :=
    (List.take_sublist _ _).subset hp
  have hpg2 : p ∈ groupSum (fun r => r.toimittaja_nimi) df := by
    unfold sortByValAsc at hpg
    rwa [List.mem_insertionSort] at hpg
  unfold groupSum at hpg2
  rcases List.mem_map.mp hpg2 with ⟨k, hk, rfl⟩
  apply List.sum_nonneg
  intro y hy
  rcases List.mem_map.mp hy with ⟨r, hr, rfl⟩
  exact h r (List.mem_of_mem_filter hr)

/-- Eleven one-invoice suppliers with totals 1..10 and −5: the excluded
supplier has a negative total. -/
def df11 : List Row :=
  [⟨20230101, 1, "t", "s01"⟩, ⟨20230101, 2, "t", "s02"⟩, ⟨20230101, 3, "t", "s03"⟩,
   ⟨20230101, 4, "t", "s04"⟩, ⟨20230101, 5, "t", "s05"⟩, ⟨20230101, 6, "t", "s06"⟩,
   ⟨20230101, 7, "t", "s07"⟩, ⟨20230101, 8, "t", "s08"⟩, ⟨20230101, 9, "t", "s09"⟩,
   ⟨20230101, 10, "t", "s10"⟩, ⟨20230101, -5, "t", "s11"⟩]

/-- C6 counterexample: on `df11` the plotted top-10 series is sorted
ascending (not descending) by total, and, because the excluded supplier's
total is negative, the sum of the plotted totals (55) exceeds the overall
filtered total (50). -/
theorem top_suppliers_cex :
    ¬ List.Sorted (fun a b : String × ℚ => b.2 ≤ a.2) ((plot_top_suppliers df11).getD [])
    ∧ (amounts df11).sum < (totals ((plot_top_suppliers df11).getD [])).sum := by
  with_unfolding_all decide

/-- C6 amended: the plotted series has at most 10 rows, is sorted ascending
by total, each row is a supplier paired with the sum of that supplier's
amounts in the view, the plotted totals plus the dropped (smallest)
suppliers' totals equal the overall filtered total, and when no amount in
the view is negative the plotted totals sum to at most the overall total. -/
theorem top_suppliers_amended (df : List Row) :
    (df.isEmpty = false → plot_top_suppliers df = some (top_suppliers_table df))
    ∧ (top_suppliers_table df).length ≤ 10
    ∧ List.Sorted (fun a b : String × ℚ => a.2 ≤ b.2) (top_suppliers_table df)
    ∧ (∀ p ∈ top_suppliers_table df,
        p.2 = ((df.filter (fun r => decide (r.toimittaja_nimi = p.1))).map
          (fun r => r.laskun_summa)).sum)
    ∧ (totals (top_suppliers_table df)).sum
        + (totals ((sortByValAsc (groupSum (fun r => r.toimittaja_nimi) df)).take
            ((sortByValAsc (groupSum (fun r => r.toimittaja_nimi) df)).length - 10))).sum
        = (amounts df).sum
    ∧ ((∀ r ∈ df, 0 ≤ r.laskun_summa) →
        (totals (top_suppliers_table df)).sum ≤ (amounts df).sum) := by
  refine ⟨?_, ?_, top_suppliers_sorted df, top_suppliers_entries df,
    top_suppliers_sum_split df, ?_⟩
  · intro h
    simp [plot_top_suppliers, h]
  · unfold top_suppliers_table
    rw [List.length_drop]
    omega
  · intro h
    have hnn := dropped_totals_nonneg df h
    have hsplit := top_suppliers_sum_split df
    linarith

/-- Witness for the amended C6 on a concrete all-positive two-row view. -/
theorem top_suppliers_amended_witness :
    (wdf.isEmpty = false → plot_top_suppliers wdf = some (top_suppliers_table wdf))
    ∧ (totals (top_suppliers_table wdf)).sum ≤ (amounts wdf).sum :=
  ⟨(top_suppliers_amended wdf).1, (top_suppliers_amended wdf).2.2.2.2.2 (by decide)⟩
